import Mathlib

/-!
Verification of the image-write pipeline of the schrijver repository
(src/writer.rs, src/device.rs, src/error.rs, src/main.rs).

Shallow embedding conventions:
- Byte streams are `List Nat`.  A `read` into a buffer of size `B` from a
  regular file or cursor returns `min B remaining` bytes (the deterministic
  behaviour of `File`/`Cursor` reads used by the program).
- `u64` counters are `Nat`; the `f32`/`f64` progress and speed fields are
  modelled exactly as rationals (`ℚ`).  Every concrete value appearing in a
  theorem below is exactly representable in the corresponding float type.
- `Instant::now()` observations are supplied by a function `times : Nat → Nat`
  giving the millisecond timestamp seen at loop iteration `i`; `t0` is the
  timestamp taken at `start_time`, `tF` the one taken for the final report.
  `Duration::as_millis` of `now - earlier` is Nat subtraction (saturating,
  matching the monotone clock).
- The underlying destination writer is an oracle `worc : Nat → WResult`:
  the result of the `k`-th raw `write` call (`ok n` = accepted `n` bytes,
  `err` = I/O error).  `std::io::Write::write_all` is modelled faithfully:
  it loops over raw writes, fails on an error or on a zero-byte acceptance,
  and otherwise retries the unwritten remainder of the chunk.
- Recursions carry an explicit `fuel` bound on the number of loop iterations
  so that every definition is structurally recursive and kernel-executable.
  Each iteration of each loop consumes at least one byte, so the wrappers
  pass `length + 1`, which is always sufficient; the lemmas below never rely
  on the out-of-fuel branch.
-/

namespace Schrijver

/-- Mirror of `WriteProgress` (src/writer.rs lines 18-24); `progress_percent`
is `f32` and `speed_mbps` is `f64` in the source, modelled as `ℚ`. -/
structure WriteProgress where
  bytes_written : Nat
  total_bytes : Nat
  progress_percent : ℚ
  speed_mbps : ℚ
  deriving DecidableEq, Repr

/-- The throttled sample built in the copy loop (src/writer.rs lines 157-173):
percent is `bytes_written / total_size * 100`, speed is the cumulative
average `bytes / MiB / elapsed-seconds` guarded by `elapsed > 0`. -/
def mkSample (bw total elapsedMs : Nat) : WriteProgress :=
  { bytes_written := bw
    total_bytes := total
    progress_percent := (bw : ℚ) / (total : ℚ) * 100
    speed_mbps :=
      if 0 < elapsedMs then ((bw : ℚ) / (1024 * 1024)) / ((elapsedMs : ℚ) / 1000)
      else 0 }

/-- The unconditional final sample (src/writer.rs lines 181-193):
`progress_percent` is the literal constant `100.0`. -/
def finalSample (bw total elapsedMs : Nat) : WriteProgress :=
  { bytes_written := bw
    total_bytes := total
    progress_percent := 100
    speed_mbps :=
      if 0 < elapsedMs then ((bw : ℚ) / (1024 * 1024)) / ((elapsedMs : ℚ) / 1000)
      else 0 }

/-- Result of one raw `Write::write` call on the destination. -/
inductive WResult where
  | ok (n : Nat)
  | err
  deriving DecidableEq, Repr

/-- `std::io::Write::write_all` over the raw-write oracle `worc`, starting at
call counter `k`, writing `chunk`, with `out` the bytes the destination has
accepted so far.  Returns the new destination contents and `some k2` on
success (`k2` = next call counter) or `none` on failure.  A raw write that
accepts `0` bytes is the `WriteZero` error; a short-but-nonzero raw write
leaves the remainder to be retried by the enclosing loop. -/
def write_all : Nat → (Nat → WResult) → Nat → List Nat → List Nat → List Nat × Option Nat
  | 0, _, _, _, out => (out, none)
  | _ + 1, _, k, [], out => (out, some k)
  | fuel + 1, worc, k, c :: cs, out =>
    match worc k with
    | WResult.err => (out, none)
    | WResult.ok 0 => (out, none)
    | WResult.ok (m + 1) =>
      write_all fuel worc (k + 1) ((c :: cs).drop (m + 1)) (out ++ (c :: cs).take (m + 1))

/-- Observable result of `copy_with_progress` (src/writer.rs lines 121-199):
`ok` = returned `Ok(())`; `out` = bytes accepted by the destination;
`samples` = the `WriteProgress` values passed to the callback, in order;
`reads` = the sizes of the successful nonzero reads, in order. -/
structure CopyResult where
  ok : Bool
  out : List Nat
  bytes_written : Nat
  samples : List WriteProgress
  reads : List Nat
  deriving DecidableEq, Repr

/-- The copy loop of `copy_with_progress` (src/writer.rs lines 138-175).
`rem` is the unread remainder of the source; a read returns
`n = min B rem.length` bytes; `n = 0` breaks with success; the chunk is
written with `write_all`; `bytes_written` then accumulates; a sample is
emitted only when more than 100 ms elapsed since `lastT`
(`last_progress_time`), in which case `lastT` is reset to `now`. -/
def copyAux (B total : Nat) (worc : Nat → WResult) (times : Nat → Nat) (t0 : Nat) :
    Nat → List Nat → Nat → Nat → Nat → Nat → List Nat → List WriteProgress → List Nat → CopyResult
  | 0, _, _, _, bw, _, out, samples, reads =>
    { ok := false, out := out, bytes_written := bw, samples := samples, reads := reads }
  | fuel + 1, rem, i, k, bw, lastT, out, samples, reads =>
    let n := min B rem.length
    if n = 0 then
      { ok := true, out := out, bytes_written := bw, samples := samples, reads := reads }
    else
      match write_all (n + 1) worc k (rem.take n) out with
      | (out2, none) =>
        { ok := false, out := out2, bytes_written := bw, samples := samples,
          reads := reads ++ [n] }
      | (out2, some k2) =>
        let bw2 := bw + n
        let now := times i
        if 100 < now - lastT then
          copyAux B total worc times t0 fuel (rem.drop n) (i + 1) k2 bw2 now out2
            (samples ++ [mkSample bw2 total (now - t0)]) (reads ++ [n])
        else
          copyAux B total worc times t0 fuel (rem.drop n) (i + 1) k2 bw2 lastT out2
            samples (reads ++ [n])

/-- `UsbWriter::copy_with_progress` (src/writer.rs lines 121-199): run the
loop with `last_progress_time = start_time = t0`, then, on success, flush
(a no-op for the in-memory destination model) and append the final sample
with the hard-coded `100.0` percent. -/
def copy_with_progress (src : List Nat) (B total : Nat) (worc : Nat → WResult)
    (times : Nat → Nat) (t0 tF : Nat) : CopyResult :=
  let r := copyAux B total worc times t0 (src.length + 1) src 0 0 0 t0 [] [] []
  if r.ok then
    { r with samples := r.samples ++ [finalSample r.bytes_written total (tF - t0)] }
  else r

/-- The verification loop of `verify_write_sync` (src/writer.rs lines
230-254): read `min vB remaining` from each side; a zero-byte source read
breaks with success; differing read counts, or differing bytes in the
compared range, report failure. -/
def verifyAux (vB : Nat) : Nat → List Nat → List Nat → Bool
  | 0, _, _ => false
  | fuel + 1, iso, dev =>
    let ib := min vB iso.length
    let db := min vB dev.length
    if ib = 0 then true
    else if ib ≠ db then false
    else if iso.take ib ≠ dev.take db then false
    else verifyAux vB fuel (iso.drop ib) (dev.drop db)

/-- `UsbWriter::verify_write_sync` (src/writer.rs lines 212-259) on the byte
contents of the image and the destination, with the fixed 64 KiB buffer. -/
def verify_write_sync (iso dev : List Nat) : Bool :=
  verifyAux (64 * 1024) (iso.length + 1) iso dev

/-- Mirror of `WriterError` (src/error.rs lines 5-39); `String` payloads are
`List Char`. -/
inductive WriterError where
  | IsoNotFound (p : List Char)
  | DeviceNotFound (p : List Char)
  | DeviceMounted (p : List Char)
  | PermissionDenied
  | InsufficientSpace
  | VerificationFailed
  | IoError (s : List Char)
  | DeviceBusy
  | InvalidIsoFormat
  | Cancelled
  | Unknown (s : List Char)
  deriving DecidableEq, Repr

/-- `Result<(), WriterError>` of the session pipeline. -/
inductive Outcome where
  | success
  | failure (e : WriterError)
  deriving DecidableEq, Repr

/-- Externally visible side effects of the pipeline, in program order.
`probeOpenDev` is the `File::open(device_path)` performed by
`get_device_size` (src/writer.rs line 324) to issue the size ioctl;
`writerOpenIso`/`writerOpenDev` are the writer opening the image for reading
and the device for writing (src/writer.rs lines 86, 93); `writeData` is the
copy loop writing image bytes to the device; `verifyOpenIso`/`verifyOpenDev`
are the verifier re-opening both for reading (src/writer.rs lines 213,
216); `warnNotIso` is the stderr extension warning (src/writer.rs line
274). -/
inductive Ev where
  | warnNotIso
  | probeOpenDev
  | writerOpenIso
  | writerOpenDev
  | writeData
  | verifyOpenIso
  | verifyOpenDev
  deriving DecidableEq, Repr

/-- Host state a session runs against.  `mounts` is the list of first
(mounted-source) fields of the live mount-table lines; `dev_open_read_ok`
says whether `File::open(device_path)` inside the capacity probe succeeds,
and `ioctl_size` is the size ioctl result when it does (`none` = ioctl
failure, i.e. capacity unknown).  I/O on the opened image and device is
otherwise taken to succeed, which is the case all pipeline claims address. -/
structure Env where
  iso_path : List Char
  iso_exists : Bool
  iso_ext : Option (List Char)
  iso_content : List Nat
  device_path : List Char
  device_exists : Bool
  device_content : List Nat
  mounts : List (List Char)
  dev_open_read_ok : Bool
  ioctl_size : Option Nat
  deriving Repr

/-- Result of a pipeline run: ordered event trace, terminal outcome, and the
device contents afterwards. -/
structure RunResult where
  trace : List Ev
  outcome : Outcome
  device_after : List Nat
  deriving DecidableEq, Repr

/-- `str::to_lowercase` on a `List Char` extension. -/
def lowerChars (s : List Char) : List Char := s.map Char.toLower

/-- `is_device_mounted` (src/device.rs lines 122-141): scan the mount table
for an entry whose mounted-source field starts with the device path. -/
def is_device_mounted (mounts : List (List Char)) (device_path : List Char) : Bool :=
  mounts.any (fun entry => List.isPrefixOf device_path entry)

/-- `validate_device_for_writing` (src/device.rs lines 143-159): existence
check, then mount check. -/
def validate_device_for_writing (env : Env) : Option WriterError :=
  if env.device_exists = false then some (WriterError.DeviceNotFound env.device_path)
  else if is_device_mounted env.mounts env.device_path then
    some (WriterError.DeviceMounted env.device_path)
  else none

/-- `BUFFER_SIZE` (src/writer.rs line 10). -/
def BUFFER_SIZE : Nat := 1024 * 1024

/-- The write-then-verify tail of `write_iso_to_device` (src/writer.rs lines
296-313): the writer opens the image then the device, copies with the 1 MiB
buffer (ideal I/O: every raw write accepts the whole chunk), then the
verifier re-opens both and compares. -/
def writeAndVerify (env : Env) (evs : List Ev) : RunResult :=
  let cr := copy_with_progress env.iso_content BUFFER_SIZE env.iso_content.length
    (fun _ => WResult.ok BUFFER_SIZE) (fun _ => 0) 0 0
  let dev2 := cr.out
  { trace := evs ++ [Ev.writerOpenIso, Ev.writerOpenDev, Ev.writeData,
      Ev.verifyOpenIso, Ev.verifyOpenDev]
    outcome :=
      if verify_write_sync env.iso_content dev2 then Outcome.success
      else Outcome.failure WriterError.VerificationFailed
    device_after := dev2 }

/-- `write_iso_to_device` (src/writer.rs lines 262-314): image existence
check, extension warning, device existence check, then the capacity probe
(`get_device_size`, src/writer.rs lines 317-336, which opens the device to
issue the ioctl); when the probe yields a size smaller than the image, fail
with `InsufficientSpace`; otherwise write and verify. -/
def write_iso_to_device (env : Env) : RunResult :=
  if env.iso_exists = false then
    { trace := [], outcome := Outcome.failure (WriterError.IsoNotFound env.iso_path),
      device_after := env.device_content }
  else
    let warnEvs : List Ev :=
      match env.iso_ext with
      | some e => if lowerChars e ≠ ['i', 's', 'o'] then [Ev.warnNotIso] else []
      | none => []
    if env.device_exists = false then
      { trace := warnEvs, outcome := Outcome.failure (WriterError.DeviceNotFound env.device_path),
        device_after := env.device_content }
    else
      let iso_size := env.iso_content.length
      let probeEvs : List Ev := if env.dev_open_read_ok then [Ev.probeOpenDev] else []
      let cap : Option Nat := if env.dev_open_read_ok then env.ioctl_size else none
      match cap with
      | some c =>
        if c < iso_size then
          { trace := warnEvs ++ probeEvs, outcome := Outcome.failure WriterError.InsufficientSpace,
            device_after := env.device_content }
        else writeAndVerify env (warnEvs ++ probeEvs)
      | none => writeAndVerify env (warnEvs ++ probeEvs)

/-- `write_iso_to_usb` (src/main.rs lines 242-271): validate the device
(existence and mount state), then run `write_iso_to_device`. -/
def write_iso_to_usb (env : Env) : RunResult :=
  match validate_device_for_writing env with
  | some e => { trace := [], outcome := Outcome.failure e, device_after := env.device_content }
  | none => write_iso_to_device env

/-! Helper lemmas about the copy loop. -/

/-- When every raw write accepts up to `m > 0` bytes, `write_all` retries the
remainder until the whole chunk has been accepted and succeeds. -/
theorem write_all_const_ok (m : Nat) (hm : 0 < m) :
    ∀ (fuel : Nat) (chunk out : List Nat) (k : Nat), chunk.length < fuel →
    ∃ k2, write_all fuel (fun _ => WResult.ok m) k chunk out = (out ++ chunk, some k2) := by
  intro fuel
  induction fuel with
  | zero => intro chunk out k h; omega
  | succ fuel ih =>
    intro chunk out k h
    cases chunk with
    | nil => exact ⟨k, by simp [write_all]⟩
    | cons c cs =>
      obtain ⟨m', rfl⟩ : ∃ m', m = m' + 1 := ⟨m - 1, by omega⟩
      have hlen : ((c :: cs).drop (m' + 1)).length < fuel := by
        simp only [List.length_drop, List.length_cons] at *
        omega
      obtain ⟨k2, hk2⟩ := ih ((c :: cs).drop (m' + 1)) (out ++ (c :: cs).take (m' + 1)) (k + 1) hlen
      refine ⟨k2, ?_⟩
      simp only [write_all, hk2, List.append_assoc, List.take_append_drop]

/-- A raw write error or a zero-byte acceptance makes `write_all` fail at
once, accepting nothing further of the chunk. -/
theorem write_all_err (fuel : Nat) (worc : Nat → WResult) (k : Nat)
    (chunk out : List Nat) (hch : chunk ≠ [])
    (h : worc k = WResult.err ∨ worc k = WResult.ok 0) :
    write_all fuel worc k chunk out = (out, none) := by
  cases fuel with
  | zero => rfl
  | succ fuel =>
    cases chunk with
    | nil => exact absurd rfl hch
    | cons c cs =>
      rcases h with h | h <;> simp [write_all, h]

/-- Ideal-writer run of the copy loop: it succeeds, the destination receives
exactly the remaining source bytes, and `bytes_written` accumulates their
count. -/
theorem copyAux_const_ok (B total : Nat) (times : Nat → Nat) (t0 : Nat) (hB : 0 < B) :
    ∀ (fuel : Nat) (rem : List Nat) (i k bw lastT : Nat) (out : List Nat)
      (samples : List WriteProgress) (reads : List Nat), rem.length < fuel →
    ∃ samples2 reads2,
      copyAux B total (fun _ => WResult.ok B) times t0 fuel rem i k bw lastT out samples reads =
      { ok := true, out := out ++ rem, bytes_written := bw + rem.length,
        samples := samples2, reads := reads2 } := by
  intro fuel
  induction fuel with
  | zero => intro rem i k bw lastT out samples reads h; omega
  | succ fuel ih =>
    intro rem i k bw lastT out samples reads h
    by_cases hn : min B rem.length = 0
    · have hrem : rem = [] := List.length_eq_zero.mp (by omega)
      subst hrem
      exact ⟨samples, reads, by simp [copyAux]⟩
    · have h1 : 1 ≤ min B rem.length := by omega
      have htk : (rem.take (min B rem.length)).length < min B rem.length + 1 := by
        simp only [List.length_take]
        omega
      obtain ⟨k2, hw⟩ := write_all_const_ok B hB (min B rem.length + 1)
        (rem.take (min B rem.length)) out k htk
      have hdrop : (rem.drop (min B rem.length)).length < fuel := by
        simp only [List.length_drop]
        omega
      by_cases ht : 100 < times i - lastT
      · obtain ⟨s2, r2, hrec⟩ := ih (rem.drop (min B rem.length)) (i + 1) k2
          (bw + min B rem.length) (times i) (out ++ rem.take (min B rem.length))
          (samples ++ [mkSample (bw + min B rem.length) total (times i - t0)])
          (reads ++ [min B rem.length]) hdrop
        refine ⟨s2, r2, ?_⟩
        simp only [copyAux, if_neg hn, hw, if_pos ht, hrec, List.append_assoc,
          List.take_append_drop, List.length_drop]
        congr 1
        omega
      · obtain ⟨s2, r2, hrec⟩ := ih (rem.drop (min B rem.length)) (i + 1) k2
          (bw + min B rem.length) lastT (out ++ rem.take (min B rem.length))
          samples (reads ++ [min B rem.length]) hdrop
        refine ⟨s2, r2, ?_⟩
        simp only [copyAux, if_neg hn, hw, if_neg ht, hrec, List.append_assoc,
          List.take_append_drop, List.length_drop]
        congr 1
        omega

/-- Every sample the copy loop emits (for any writer behaviour and any
timing) is either one already in the accumulator or carries the session
total and the unclamped ratio `bytes_written / total * 100` as its
percentage. -/
theorem copyAux_samples_mem (B total : Nat) (worc : Nat → WResult)
    (times : Nat → Nat) (t0 : Nat) :
    ∀ (fuel : Nat) (rem : List Nat) (i k bw lastT : Nat) (out : List Nat)
      (samples : List WriteProgress) (reads : List Nat) (s : WriteProgress),
    s ∈ (copyAux B total worc times t0 fuel rem i k bw lastT out samples reads).samples →
    s ∈ samples ∨ (s.total_bytes = total ∧
      s.progress_percent = (s.bytes_written : ℚ) / (total : ℚ) * 100) := by
  intro fuel
  induction fuel with
  | zero => intro rem i k bw lastT out samples reads s hs; exact Or.inl hs
  | succ fuel ih =>
    intro rem i k bw lastT out samples reads s hs
    simp only [copyAux] at hs
    by_cases hn : min B rem.length = 0
    · rw [if_pos hn] at hs
      exact Or.inl hs
    · rw [if_neg hn] at hs
      rcases hw : write_all (min B rem.length + 1) worc k (rem.take (min B rem.length)) out
        with ⟨out2, ko⟩
      rw [hw] at hs
      cases ko with
      | none =>
        dsimp only at hs
        exact Or.inl hs
      | some k2 =>
        dsimp only at hs
        by_cases ht : 100 < times i - lastT
        · rw [if_pos ht] at hs
          rcases ih _ _ _ _ _ _ _ _ _ hs with hmem | hprop
          · rcases List.mem_append.mp hmem with hmem | hnew
            · exact Or.inl hmem
            · refine Or.inr ?_
              rcases List.mem_singleton.mp hnew with rfl
              exact ⟨rfl, rfl⟩
          · exact Or.inr hprop
        · rw [if_neg ht] at hs
          exact ih _ _ _ _ _ _ _ _ _ hs

/-! Helper lemmas about the verification loop. -/

/-- Comparing identical contents always succeeds. -/
theorem verifyAux_self (vB : Nat) :
    ∀ (fuel : Nat) (iso : List Nat), iso.length < fuel →
    verifyAux vB fuel iso iso = true := by
  intro fuel
  induction fuel with
  | zero => intro iso h; omega
  | succ fuel ih =>
    intro iso h
    by_cases hib : min vB iso.length = 0
    · simp [verifyAux, hib]
    · have : (iso.drop (min vB iso.length)).length < fuel := by
        simp only [List.length_drop]
        omega
      simp [verifyAux, hib, ih _ this]

/-- One unfolding step of the verification loop. -/
theorem verifyAux_succ (vB fuel : Nat) (iso dev : List Nat) :
    verifyAux vB (fuel + 1) iso dev =
    if min vB iso.length = 0 then true
    else if min vB iso.length ≠ min vB dev.length then false
    else if iso.take (min vB iso.length) ≠ dev.take (min vB dev.length) then false
    else verifyAux vB fuel (iso.drop (min vB iso.length)) (dev.drop (min vB dev.length)) := rfl

/-- A byte mismatch at an offset inside the source length makes the
verification loop report failure. -/
theorem verifyAux_mismatch (vB : Nat) (hvB : 0 < vB) :
    ∀ (fuel : Nat) (iso dev : List Nat) (i : Nat), iso.length < fuel →
    i < iso.length → iso[i]? ≠ dev[i]? →
    verifyAux vB fuel iso dev = false := by
  intro fuel
  induction fuel with
  | zero => intro iso dev i h; omega
  | succ fuel ih =>
    intro iso dev i h hi hne
    have hib : min vB iso.length ≠ 0 := by omega
    by_cases hdb : min vB iso.length = min vB dev.length
    · by_cases hlt : i < min vB iso.length
      · have htk : iso.take (min vB iso.length) ≠ dev.take (min vB dev.length) := by
          intro heq
          apply hne
          have h1 : (iso.take (min vB iso.length))[i]? = iso[i]? := by
            rw [List.getElem?_take, if_pos hlt]
          have h2 : (dev.take (min vB dev.length))[i]? = dev[i]? := by
            rw [List.getElem?_take, if_pos (hdb ▸ hlt)]
          rw [← h1, ← h2, heq]
        rw [verifyAux_succ, if_neg hib, if_neg (fun hc => hc hdb), if_pos htk]
      · have hvb : min vB iso.length = vB := by omega
        by_cases htk : iso.take (min vB iso.length) = dev.take (min vB dev.length)
        · have hrec : verifyAux vB fuel (iso.drop (min vB iso.length))
              (dev.drop (min vB dev.length)) = false := by
            apply ih _ _ (i - vB)
            · simp only [List.length_drop]; omega
            · simp only [List.length_drop]; omega
            · rw [List.getElem?_drop, List.getElem?_drop, hvb, ← hdb, hvb]
              have : vB + (i - vB) = i := by omega
              rw [this]
              exact hne
          rw [verifyAux_succ, if_neg hib, if_neg (fun hc => hc hdb),
            if_neg (fun hc => hc htk)]
          exact hrec
        · rw [verifyAux_succ, if_neg hib, if_neg (fun hc => hc hdb), if_pos htk]
    · rw [verifyAux_succ, if_neg hib, if_pos hdb]

/-- A read-count mismatch at step `j` — with the source-side read nonzero —
makes the verification loop report failure.  Step `j` reads
`min vB (length - j * vB)` bytes from a side whose original content has the
given length. -/
theorem verifyAux_count_mismatch (vB : Nat) (hvB : 0 < vB) :
    ∀ (j fuel : Nat) (iso dev : List Nat), iso.length < fuel →
    min vB (iso.length - j * vB) ≠ min vB (dev.length - j * vB) →
    min vB (iso.length - j * vB) ≠ 0 →
    verifyAux vB fuel iso dev = false := by
  intro j
  induction j with
  | zero =>
    intro fuel iso dev hf hne hnz
    simp only [Nat.zero_mul, Nat.sub_zero] at hne hnz
    cases fuel with
    | zero => omega
    | succ fuel =>
      have hib : min vB iso.length ≠ 0 := hnz
      rw [verifyAux_succ, if_neg hib, if_pos hne]
  | succ j ih =>
    intro fuel iso dev hf hne hnz
    have hjv : (j + 1) * vB = j * vB + vB := Nat.succ_mul j vB
    have hbig : j * vB + vB < iso.length := by
      rw [hjv] at hnz
      omega
    cases fuel with
    | zero => omega
    | succ fuel =>
      have hib : min vB iso.length = vB := by omega
      have hib0 : min vB iso.length ≠ 0 := by omega
      by_cases hdb : min vB iso.length = min vB dev.length
      · by_cases htk : iso.take (min vB iso.length) = dev.take (min vB dev.length)
        · have hrec : verifyAux vB fuel (iso.drop (min vB iso.length))
              (dev.drop (min vB dev.length)) = false := by
            apply ih
            · simp only [List.length_drop]; omega
            · simp only [List.length_drop, hib, ← hdb, hib]
              have e1 : iso.length - vB - j * vB = iso.length - (j + 1) * vB := by
                rw [hjv]; omega
              have e2 : dev.length - vB - j * vB = dev.length - (j + 1) * vB := by
                rw [hjv]; omega
              rw [e1, e2]
              exact hne
            · simp only [List.length_drop, hib]
              have e1 : iso.length - vB - j * vB = iso.length - (j + 1) * vB := by
                rw [hjv]; omega
              rw [e1]
              exact hnz
          rw [verifyAux_succ, if_neg hib0, if_neg (fun hc => hc hdb),
            if_neg (fun hc => hc htk)]
          exact hrec
        · rw [verifyAux_succ, if_neg hib0, if_neg (fun hc => hc hdb), if_pos htk]
      · rw [verifyAux_succ, if_neg hib0, if_pos hdb]

/-- One unfolding step of the copy loop. -/
theorem copyAux_succ (B total : Nat) (worc : Nat → WResult) (times : Nat → Nat)
    (t0 fuel : Nat) (rem : List Nat) (i k bw lastT : Nat) (out : List Nat)
    (samples : List WriteProgress) (reads : List Nat) :
    copyAux B total worc times t0 (fuel + 1) rem i k bw lastT out samples reads =
    (if min B rem.length = 0 then
      { ok := true, out := out, bytes_written := bw, samples := samples, reads := reads }
    else
      match write_all (min B rem.length + 1) worc k (rem.take (min B rem.length)) out with
      | (out2, none) =>
        { ok := false, out := out2, bytes_written := bw, samples := samples,
          reads := reads ++ [min B rem.length] }
      | (out2, some k2) =>
        if 100 < times i - lastT then
          copyAux B total worc times t0 fuel (rem.drop (min B rem.length)) (i + 1) k2
            (bw + min B rem.length) (times i) out2
            (samples ++ [mkSample (bw + min B rem.length) total (times i - t0)])
            (reads ++ [min B rem.length])
        else
          copyAux B total worc times t0 fuel (rem.drop (min B rem.length)) (i + 1) k2
            (bw + min B rem.length) lastT out2 samples (reads ++ [min B rem.length])) := rfl

/-- With an ideal destination (every raw write accepts the full chunk),
`copy_with_progress` succeeds, writes exactly the source bytes, and ends
with `bytes_written` equal to the source length. -/
theorem copy_with_progress_ideal (src : List Nat) (B total : Nat) (times : Nat → Nat)
    (t0 tF : Nat) (hB : 0 < B) :
    (copy_with_progress src B total (fun _ => WResult.ok B) times t0 tF).ok = true ∧
    (copy_with_progress src B total (fun _ => WResult.ok B) times t0 tF).out = src ∧
    (copy_with_progress src B total (fun _ => WResult.ok B) times t0 tF).bytes_written
      = src.length := by
  obtain ⟨s2, r2, hr⟩ := copyAux_const_ok B total times t0 hB (src.length + 1)
    src 0 0 0 t0 [] [] [] (by omega)
  simp [copy_with_progress, hr]

/-- On every successful run, the sample stream ends with the hard-coded
final sample: percentage `100`, `bytes_written` equal to the run's final
counter. -/
theorem copy_with_progress_last (src : List Nat) (B total : Nat) (worc : Nat → WResult)
    (times : Nat → Nat) (t0 tF : Nat)
    (h : (copy_with_progress src B total worc times t0 tF).ok = true) :
    ∃ pre last, (copy_with_progress src B total worc times t0 tF).samples = pre ++ [last] ∧
      last.progress_percent = 100 ∧
      last.bytes_written = (copy_with_progress src B total worc times t0 tF).bytes_written := by
  by_cases hr : (copyAux B total worc times t0 (src.length + 1) src 0 0 0 t0 [] [] []).ok = true
  · refine ⟨(copyAux B total worc times t0 (src.length + 1) src 0 0 0 t0 [] [] []).samples,
      finalSample (copyAux B total worc times t0 (src.length + 1) src 0 0 0 t0 [] [] []).bytes_written
        total (tF - t0), ?_, rfl, ?_⟩
    · simp [copy_with_progress, hr]
    · simp [copy_with_progress, hr, finalSample]
  · exfalso
    rw [Bool.not_eq_true] at hr
    simp [copy_with_progress, hr] at h

/-- Identical contents verify successfully. -/
theorem verify_write_sync_self (l : List Nat) : verify_write_sync l l = true :=
  verifyAux_self (64 * 1024) (l.length + 1) l (Nat.lt_succ_self _)

/-! Claim theorems. -/

/-- C1 (counterexample): a successful run — source `[7]`, buffer 1,
`total_size` 1, with the single chunk's write finishing 200 ms after start —
emits TWO samples whose `progress_percent` equals `100.0`: the throttled
mid-loop sample (its ratio `1/1 × 100` is exactly `100.0` in `f32`) and the
hard-coded final sample.  This refutes the claim that exactly one sample
equals `100.0`. -/
theorem C1_counterexample :
    (copy_with_progress [7] 1 1 (fun _ => WResult.ok 1) (fun _ => 200) 0 300).ok = true ∧
    ((copy_with_progress [7] 1 1 (fun _ => WResult.ok 1) (fun _ => 200) 0 300).samples.map
      fun s => s.progress_percent) = [100, 100] := by
  constructor
  · decide
  · norm_num [copy_with_progress, copyAux, write_all, mkSample, finalSample]

/-- C1 (amended): for every copy run that ends in success, the final
`ProgressSample` emitted has `progress_percent = 100.0` (and reports the
final `bytes_written`), regardless of timing; but it need not be the unique
sample equal to `100.0`, since a throttled mid-loop sample emitted after the
last chunk can also equal `100.0`. -/
theorem C1_final_sample (src : List Nat) (B total : Nat) (worc : Nat → WResult)
    (times : Nat → Nat) (t0 tF : Nat)
    (h : (copy_with_progress src B total worc times t0 tF).ok = true) :
    ∃ pre last, (copy_with_progress src B total worc times t0 tF).samples = pre ++ [last] ∧
      last.progress_percent = 100 ∧
      last.bytes_written = (copy_with_progress src B total worc times t0 tF).bytes_written :=
  copy_with_progress_last src B total worc times t0 tF h

/-- C1 witness: the amended theorem applied to a concrete successful run. -/
theorem C1_witness :
    (copy_with_progress [7] 1 1 (fun _ => WResult.ok 1) (fun _ => 200) 0 300).ok = true ∧
    ∃ pre last,
      (copy_with_progress [7] 1 1 (fun _ => WResult.ok 1) (fun _ => 200) 0 300).samples
        = pre ++ [last] ∧
      last.progress_percent = 100 ∧
      last.bytes_written =
        (copy_with_progress [7] 1 1 (fun _ => WResult.ok 1) (fun _ => 200) 0 300).bytes_written :=
  ⟨by decide, C1_final_sample [7] 1 1 (fun _ => WResult.ok 1) (fun _ => 200) 0 300 (by decide)⟩

/-- C2: for every source byte content (zero-length and sub-buffer contents
included) and every positive copy buffer size, the Writer's copy succeeds
and the Verifier run on the resulting destination reports success. -/
theorem C2_round_trip (src : List Nat) (B total : Nat) (times : Nat → Nat)
    (t0 tF : Nat) (hB : 0 < B) :
    (copy_with_progress src B total (fun _ => WResult.ok B) times t0 tF).ok = true ∧
    verify_write_sync src
      (copy_with_progress src B total (fun _ => WResult.ok B) times t0 tF).out = true := by
  obtain ⟨hok, hout, hbw⟩ := copy_with_progress_ideal src B total times t0 tF hB
  refine ⟨hok, ?_⟩
  rw [hout]
  exact verify_write_sync_self src

/-- C2 witness: round trip on the empty source and on a two-byte source. -/
theorem C2_witness :
    (0 < 4 ∧
      verify_write_sync []
        (copy_with_progress [] 4 0 (fun _ => WResult.ok 4) (fun _ => 0) 0 0).out = true) ∧
    verify_write_sync [9, 3]
      (copy_with_progress [9, 3] 4 2 (fun _ => WResult.ok 4) (fun _ => 0) 0 0).out = true :=
  ⟨⟨by decide, (C2_round_trip [] 4 0 (fun _ => 0) 0 0 (by decide)).2⟩,
    (C2_round_trip [9, 3] 4 2 (fun _ => 0) 0 0 (by decide)).2⟩

/-- C3: with every read and write succeeding, the final `bytes_written`
equals the source length for every source and every positive buffer size;
and in the concrete 50-byte/16-byte-buffer scenario the loop performs reads
of sizes 16, 16, 16, 2 and ends with `bytes_written = 50`. -/
theorem C3_bytes_written :
    (∀ (src : List Nat) (B total : Nat) (times : Nat → Nat) (t0 tF : Nat), 0 < B →
      (copy_with_progress src B total (fun _ => WResult.ok B) times t0 tF).bytes_written
        = src.length) ∧
    (copy_with_progress (List.replicate 50 0) 16 50 (fun _ => WResult.ok 16)
      (fun _ => 0) 0 0).reads = [16, 16, 16, 2] ∧
    (copy_with_progress (List.replicate 50 0) 16 50 (fun _ => WResult.ok 16)
      (fun _ => 0) 0 0).bytes_written = 50 := by
  refine ⟨?_, by decide, by decide⟩
  intro src B total times t0 tF hB
  exact (copy_with_progress_ideal src B total times t0 tF hB).2.2

/-- C3 witness: the universal part applied to a concrete source and buffer
size that does not divide it. -/
theorem C3_witness :
    0 < 2 ∧
    (copy_with_progress [4, 5, 6] 2 3 (fun _ => WResult.ok 2) (fun _ => 0) 0 0).bytes_written
      = [4, 5, 6].length :=
  ⟨by decide, C3_bytes_written.1 [4, 5, 6] 2 3 (fun _ => 0) 0 0 (by decide)⟩

/-- C9: when the source stream ends before `total_size` bytes have been
read, the copy still succeeds; `bytes_written` is the count actually
transferred, strictly below `total_bytes`; and the final sample still
reports `progress_percent = 100.0` with that `bytes_written`. -/
theorem C9_early_eof (src : List Nat) (B total : Nat) (times : Nat → Nat)
    (t0 tF : Nat) (hB : 0 < B) (hlt : src.length < total) :
    (copy_with_progress src B total (fun _ => WResult.ok B) times t0 tF).ok = true ∧
    (copy_with_progress src B total (fun _ => WResult.ok B) times t0 tF).bytes_written
      = src.length ∧
    (copy_with_progress src B total (fun _ => WResult.ok B) times t0 tF).bytes_written
      < total ∧
    ∃ pre last,
      (copy_with_progress src B total (fun _ => WResult.ok B) times t0 tF).samples
        = pre ++ [last] ∧
      last.progress_percent = 100 ∧ last.bytes_written = src.length := by
  obtain ⟨hok, hout, hbw⟩ := copy_with_progress_ideal src B total times t0 tF hB
  obtain ⟨pre, last, hsamp, hp, hfb⟩ :=
    copy_with_progress_last src B total (fun _ => WResult.ok B) times t0 tF hok
  exact ⟨hok, hbw, by omega, pre, last, hsamp, hp, by rw [hfb, hbw]⟩

/-- C9 witness: a 1-byte stream against a claimed `total_size` of 5. -/
theorem C9_witness :
    (0 < 2 ∧ ([8] : List Nat).length < 5) ∧
    (copy_with_progress [8] 2 5 (fun _ => WResult.ok 2) (fun _ => 0) 0 0).ok = true ∧
    (copy_with_progress [8] 2 5 (fun _ => WResult.ok 2) (fun _ => 0) 0 0).bytes_written = 1 ∧
    (copy_with_progress [8] 2 5 (fun _ => WResult.ok 2) (fun _ => 0) 0 0).bytes_written < 5 :=
  ⟨⟨by decide, by decide⟩,
    (C9_early_eof [8] 2 5 (fun _ => 0) 0 0 (by decide) (by decide)).1,
    (C9_early_eof [8] 2 5 (fun _ => 0) 0 0 (by decide) (by decide)).2.1,
    (C9_early_eof [8] 2 5 (fun _ => 0) 0 0 (by decide) (by decide)).2.2.1⟩

/-- C4 (counterexample): with an empty source and a one-byte destination,
the single verification step reads 0 bytes from the source and 1 byte from
the destination — the two per-step read counts differ — yet the Verifier
reports success, because the zero-byte source read breaks out of the loop
before the count comparison (src/writer.rs lines 236-243).  This refutes
the universal "failure whenever the two per-step reads return different
byte counts".  (A step reads `min 65536 remaining` bytes from each side.) -/
theorem C4_counterexample :
    verify_write_sync [] [1] = true ∧
    min (64 * 1024) (List.length ([] : List Nat)) ≠ min (64 * 1024) [1].length := by
  decide

/-- C4 (amended): the Verifier reports failure for every destination that
differs from the source at an offset within the source's length, and for
every read-count mismatch at a step whose source-side read is nonzero; a
step whose source read returns zero bytes instead stops with success even
if the destination read count differs. -/
theorem C4_mismatch_fails :
    (∀ (iso dev : List Nat) (i : Nat), i < iso.length → iso[i]? ≠ dev[i]? →
      verify_write_sync iso dev = false) ∧
    (∀ (iso dev : List Nat) (j : Nat),
      min (64 * 1024) (iso.length - j * (64 * 1024))
        ≠ min (64 * 1024) (dev.length - j * (64 * 1024)) →
      min (64 * 1024) (iso.length - j * (64 * 1024)) ≠ 0 →
      verify_write_sync iso dev = false) := by
  constructor
  · intro iso dev i hi hne
    exact verifyAux_mismatch (64 * 1024) (by norm_num) (iso.length + 1) iso dev i
      (Nat.lt_succ_self _) hi hne
  · intro iso dev j h1 h2
    exact verifyAux_count_mismatch (64 * 1024) (by norm_num) j (iso.length + 1) iso dev
      (Nat.lt_succ_self _) h1 h2

/-- C4 witness: a one-byte mismatch, and a count mismatch with a nonzero
source read (destination shorter than source). -/
theorem C4_witness :
    (0 < [1].length ∧ ([1] : List Nat)[0]? ≠ ([2] : List Nat)[0]?) ∧
    verify_write_sync [1] [2] = false ∧
    verify_write_sync [1] [] = false :=
  ⟨⟨by decide, by decide⟩,
    C4_mismatch_fails.1 [1] [2] 0 (by decide) (by decide),
    C4_mismatch_fails.2 [1] [] 0 (by decide) (by decide)⟩

/-- C6 (counterexample): source `[1,2,3,4]` written as one 4-byte chunk to a
destination whose raw writes each accept only 2 bytes.  The first raw write
is short (2 of 4 bytes accepted), yet the copy does not abort: `write_all`
retries the remaining half of the chunk (a second raw write, final call
counter 2) and the run succeeds with the full content written.  This
refutes "a short write aborts immediately with no retry of the remaining
part of that chunk". -/
theorem C6_counterexample :
    write_all 5 (fun _ => WResult.ok 2) 0 [1, 2, 3, 4] [] = ([1, 2, 3, 4], some 2) ∧
    (copy_with_progress [1, 2, 3, 4] 4 4 (fun _ => WResult.ok 2) (fun _ => 0) 0 0).ok = true ∧
    (copy_with_progress [1, 2, 3, 4] 4 4 (fun _ => WResult.ok 2) (fun _ => 0) 0 0).out
      = [1, 2, 3, 4] := by
  decide

/-- C6 (amended): a failed raw write, or one accepting zero bytes, makes
`write_all` fail at once with nothing further of the chunk accepted; a
copy whose first raw write fails aborts immediately with nothing written
and no samples emitted; but a short-but-nonzero raw write is retried inside
`write_all` until the chunk completes, so only errors and zero-byte writes
are fatal. -/
theorem C6_write_failure_aborts :
    (∀ (fuel : Nat) (worc : Nat → WResult) (k : Nat) (chunk out : List Nat),
      chunk ≠ [] → (worc k = WResult.err ∨ worc k = WResult.ok 0) →
      write_all fuel worc k chunk out = (out, none)) ∧
    (∀ (src : List Nat) (B total : Nat) (times : Nat → Nat) (t0 tF : Nat),
      0 < B → src ≠ [] →
      (copy_with_progress src B total (fun _ => WResult.err) times t0 tF).ok = false ∧
      (copy_with_progress src B total (fun _ => WResult.err) times t0 tF).out = [] ∧
      (copy_with_progress src B total (fun _ => WResult.err) times t0 tF).samples = []) ∧
    (∀ (m fuel : Nat) (chunk out : List Nat) (k : Nat), 0 < m → chunk.length < fuel →
      ∃ k2, write_all fuel (fun _ => WResult.ok m) k chunk out = (out ++ chunk, some k2)) := by
  refine ⟨write_all_err, ?_, fun m fuel chunk out k hm hf => write_all_const_ok m hm fuel chunk out k hf⟩
  intro src B total times t0 tF hB hsrc
  have hlen : 0 < src.length := List.length_pos.mpr hsrc
  have hn : min B src.length ≠ 0 := by omega
  have hchunk : src.take (min B src.length) ≠ [] := by
    intro hc
    have := congrArg List.length hc
    simp only [List.length_take, List.length_nil] at this
    omega
  have hwa : write_all (min B src.length + 1) (fun _ => WResult.err) 0
      (src.take (min B src.length)) [] = ([], none) :=
    write_all_err _ _ _ _ _ hchunk (Or.inl rfl)
  have hrun : copyAux B total (fun _ => WResult.err) times t0 (src.length + 1)
      src 0 0 0 t0 [] [] [] =
      { ok := false, out := [], bytes_written := 0, samples := [],
        reads := [min B src.length] } := by
    rw [copyAux_succ, if_neg hn, hwa]
    exact rfl
  constructor
  · simp [copy_with_progress, hrun]
  constructor
  · simp [copy_with_progress, hrun]
  · simp [copy_with_progress, hrun]

/-- C6 witness: the amended theorem applied to a one-byte chunk with a
failing writer, and a short-write retry at `m = 2`. -/
theorem C6_witness :
    (([1] : List Nat) ≠ [] ∧ 0 < 1 ∧ 0 < 2 ∧ [5, 6, 7].length < 4) ∧
    write_all 3 (fun _ => WResult.err) 0 [1] [] = ([], none) ∧
    (copy_with_progress [1] 1 1 (fun _ => WResult.err) (fun _ => 0) 0 0).ok = false ∧
    ∃ k2, write_all 4 (fun _ => WResult.ok 2) 0 [5, 6, 7] [] = ([] ++ [5, 6, 7], some k2) :=
  ⟨⟨by decide, by decide, by decide, by decide⟩,
    C6_write_failure_aborts.1 3 (fun _ => WResult.err) 0 [1] [] (by decide) (Or.inl rfl),
    (C6_write_failure_aborts.2.1 [1] 1 1 (fun _ => 0) 0 0 (by decide) (by decide)).1,
    C6_write_failure_aborts.2.2 2 4 [5, 6, 7] [] 0 (by decide) (by decide)⟩

/-- C8 (counterexample): a run whose `total_size` parameter (1) understates
the stream length (2): the throttled sample after the final chunk carries
`progress_percent = 2/1 × 100 = 200`, outside `[0, 100]` — the code never
clamps (src/writer.rs line 168).  This refutes "clamped to `[0, 100]` for
all values". -/
theorem C8_counterexample :
    ((copy_with_progress [5, 6] 2 1 (fun _ => WResult.ok 2) (fun _ => 200) 0 300).samples.map
      fun s => s.progress_percent) = [200, 100] ∧ ¬((200 : ℚ) ≤ 100) := by
  constructor
  · norm_num [copy_with_progress, copyAux, write_all, mkSample, finalSample]
  · norm_num

/-- C8 (amended): every sample emitted during a run either is a mid-loop
sample carrying the session total and the UNCLAMPED ratio
`bytes_written / total_bytes × 100` (which exceeds 100 when
`bytes_written > total_bytes`), or is the final sample whose percentage is
the constant `100.0`. -/
theorem C8_percent_formula (src : List Nat) (B total : Nat) (worc : Nat → WResult)
    (times : Nat → Nat) (t0 tF : Nat) (s : WriteProgress)
    (hs : s ∈ (copy_with_progress src B total worc times t0 tF).samples) :
    (s.total_bytes = total ∧
      s.progress_percent = (s.bytes_written : ℚ) / (total : ℚ) * 100) ∨
    s.progress_percent = 100 := by
  by_cases hr : (copyAux B total worc times t0 (src.length + 1) src 0 0 0 t0 [] [] []).ok = true
  · simp only [copy_with_progress, hr, if_true] at hs
    rcases List.mem_append.mp hs with hmem | hfin
    · rcases copyAux_samples_mem B total worc times t0 (src.length + 1)
          src 0 0 0 t0 [] [] [] s hmem with hnil | hprop
      · exact absurd hnil (List.not_mem_nil s)
      · exact Or.inl hprop
    · rcases List.mem_singleton.mp hfin with rfl
      exact Or.inr rfl
  · rw [Bool.not_eq_true] at hr
    simp only [copy_with_progress, hr, Bool.false_eq_true, if_false] at hs
    rcases copyAux_samples_mem B total worc times t0 (src.length + 1)
        src 0 0 0 t0 [] [] [] s hs with hnil | hprop
    · exact absurd hnil (List.not_mem_nil s)
    · exact Or.inl hprop

/-- C8 witness: the amended theorem applied to the mid-loop sample of a
concrete run. -/
theorem C8_witness :
    mkSample 1 1 200 ∈
      (copy_with_progress [7] 1 1 (fun _ => WResult.ok 1) (fun _ => 200) 0 300).samples ∧
    (((mkSample 1 1 200).total_bytes = 1 ∧
      (mkSample 1 1 200).progress_percent = ((mkSample 1 1 200).bytes_written : ℚ) / (1 : ℚ) * 100) ∨
      (mkSample 1 1 200).progress_percent = 100) := by
  have hs : mkSample 1 1 200 ∈
      (copy_with_progress [7] 1 1 (fun _ => WResult.ok 1) (fun _ => 200) 0 300).samples := by
    simp [copy_with_progress, copyAux, write_all]
  exact ⟨hs, C8_percent_formula [7] 1 1 (fun _ => WResult.ok 1) (fun _ => 200) 0 300
    (mkSample 1 1 200) hs⟩

/-- The write-then-verify tail always succeeds under ideal I/O: the device
receives exactly the image bytes and the self-comparison passes. -/
theorem writeAndVerify_spec (env : Env) (evs : List Ev) :
    writeAndVerify env evs =
    { trace := evs ++ [Ev.writerOpenIso, Ev.writerOpenDev, Ev.writeData,
        Ev.verifyOpenIso, Ev.verifyOpenDev],
      outcome := Outcome.success, device_after := env.iso_content } := by
  obtain ⟨hok, hout, hbw⟩ := copy_with_progress_ideal env.iso_content BUFFER_SIZE
    env.iso_content.length (fun _ => 0) 0 0 (by norm_num [BUFFER_SIZE])
  simp [writeAndVerify, hout, verify_write_sync_self]

/-- Environment for the C5 scenario: capacity 100 known via the probe,
image of 200 bytes, device present and unmounted. -/
def envC5 : Env :=
  { iso_path := ['i'], iso_exists := true, iso_ext := some ['i', 's', 'o'],
    iso_content := List.replicate 200 0, device_path := ['/', 'd'],
    device_exists := true, device_content := [], mounts := [],
    dev_open_read_ok := true, ioctl_size := some 100 }

set_option maxRecDepth 4000 in
/-- C5 (counterexample): with known capacity 100 and a 200-byte source, the
session does fail with `InsufficientSpace` — but a handle to the target
device HAS been opened before that failure: `get_device_size` performs
`File::open(device_path)` (src/writer.rs line 324) to issue the size ioctl,
and that open appears in the trace before the failure.  This refutes "no
handle to the target device is opened at any point before that failure". -/
theorem C5_counterexample :
    (write_iso_to_usb envC5).outcome = Outcome.failure WriterError.InsufficientSpace ∧
    Ev.probeOpenDev ∈ (write_iso_to_usb envC5).trace := by
  decide

/-- C5 (amended): when the probe knows the capacity and the source exceeds
it, the session fails with `InsufficientSpace` before the device is opened
for writing and before any write to it — the device is left untouched —
but the capacity probe itself has already opened a read handle on the
device. -/
theorem C5_insufficient_space (env : Env) (c : Nat)
    (h1 : env.iso_exists = true) (h2 : env.device_exists = true)
    (h3 : is_device_mounted env.mounts env.device_path = false)
    (h4 : env.dev_open_read_ok = true) (h5 : env.ioctl_size = some c)
    (h6 : c < env.iso_content.length) :
    (write_iso_to_usb env).outcome = Outcome.failure WriterError.InsufficientSpace ∧
    Ev.writerOpenDev ∉ (write_iso_to_usb env).trace ∧
    Ev.writeData ∉ (write_iso_to_usb env).trace ∧
    Ev.probeOpenDev ∈ (write_iso_to_usb env).trace ∧
    (write_iso_to_usb env).device_after = env.device_content := by
  have hu : write_iso_to_usb env = write_iso_to_device env := by
    simp [write_iso_to_usb, validate_device_for_writing, h2, h3]
  rw [hu]
  cases hext : env.iso_ext with
  | none => simp [write_iso_to_device, h1, h2, h4, h5, h6, hext]
  | some e =>
    by_cases hL : lowerChars e = ['i', 's', 'o']
    · simp [write_iso_to_device, h1, h2, h4, h5, h6, hext, hL]
    · simp [write_iso_to_device, h1, h2, h4, h5, h6, hext, hL]

set_option maxRecDepth 4000 in
/-- C5 witness: the amended theorem applied to the concrete scenario
environment. -/
theorem C5_witness :
    (envC5.iso_exists = true ∧ envC5.ioctl_size = some 100 ∧
      100 < envC5.iso_content.length) ∧
    (write_iso_to_usb envC5).outcome = Outcome.failure WriterError.InsufficientSpace ∧
    Ev.writerOpenDev ∉ (write_iso_to_usb envC5).trace := by
  have h := C5_insufficient_space envC5 100 rfl rfl (by decide) rfl rfl (by decide)
  exact ⟨⟨rfl, rfl, by decide⟩, h.1, h.2.1⟩

/-- C7: whenever some mount-table entry's mounted-source path begins with
the (existing) target device path — a mounted partition included — the
session fails with `DeviceMounted`, with an empty effect trace and the
device contents untouched: no write is attempted. -/
theorem C7_mounted_fails (env : Env) (e : List Char)
    (hex : env.device_exists = true) (hmem : e ∈ env.mounts)
    (hpre : List.isPrefixOf env.device_path e = true) :
    write_iso_to_usb env =
      { trace := [], outcome := Outcome.failure (WriterError.DeviceMounted env.device_path),
        device_after := env.device_content } := by
  have hm : is_device_mounted env.mounts env.device_path = true :=
    List.any_eq_true.mpr ⟨e, hmem, hpre⟩
  simp [write_iso_to_usb, validate_device_for_writing, hex, hm]

/-- Environment for the C7 scenario: the mount table holds an entry for a
partition of the target device. -/
def envC7 : Env :=
  { iso_path := ['i'], iso_exists := true, iso_ext := some ['i', 's', 'o'],
    iso_content := [1, 2], device_path := ['/', 'd'],
    device_exists := true, device_content := [9], mounts := [['/', 'd', '1']],
    dev_open_read_ok := true, ioctl_size := some 8 }

/-- C7 witness: a device whose partition `/d1` is mounted. -/
theorem C7_witness :
    (envC7.device_exists = true ∧ ['/', 'd', '1'] ∈ envC7.mounts ∧
      List.isPrefixOf envC7.device_path ['/', 'd', '1'] = true) ∧
    write_iso_to_usb envC7 =
      { trace := [], outcome := Outcome.failure (WriterError.DeviceMounted envC7.device_path),
        device_after := envC7.device_content } :=
  ⟨⟨rfl, by decide, by decide⟩,
    C7_mounted_fails envC7 ['/', 'd', '1'] rfl (by decide) (by decide)⟩

/-- C10: the pipeline never produces the `InvalidIsoFormat` failure (no code
path constructs it: every error site in src/writer.rs and src/main.rs builds
a different variant, and the `From<io::Error>` conversion of src/error.rs
lines 91-100, whose `InvalidData` arm yields `InvalidIsoFormat`, is never
invoked); and a source whose extension lowercases to something other than
"iso" only triggers the stderr warning — the session still opens the device
for writing and completes successfully when every other check passes. -/
theorem C10_extension_only_warns :
    (∀ env : Env, (write_iso_to_usb env).outcome ≠ Outcome.failure WriterError.InvalidIsoFormat) ∧
    (∀ (env : Env) (e : List Char), env.iso_ext = some e → lowerChars e ≠ ['i', 's', 'o'] →
      env.iso_exists = true → env.device_exists = true →
      is_device_mounted env.mounts env.device_path = false →
      (∀ c, env.dev_open_read_ok = true → env.ioctl_size = some c →
        env.iso_content.length ≤ c) →
      Ev.warnNotIso ∈ (write_iso_to_usb env).trace ∧
      Ev.writerOpenDev ∈ (write_iso_to_usb env).trace ∧
      (write_iso_to_usb env).outcome = Outcome.success) := by
  constructor
  · intro env
    cases hval : validate_device_for_writing env with
    | some e =>
      have hout : (write_iso_to_usb env).outcome = Outcome.failure e := by
        simp [write_iso_to_usb, hval]
      rw [hout]
      have he : e = WriterError.DeviceNotFound env.device_path ∨
          e = WriterError.DeviceMounted env.device_path := by
        unfold validate_device_for_writing at hval
        by_cases hde : env.device_exists = false
        · rw [if_pos hde] at hval
          exact Or.inl (Option.some.inj hval).symm
        · rw [if_neg hde] at hval
          by_cases hdm : is_device_mounted env.mounts env.device_path = true
          · rw [if_pos hdm] at hval
            exact Or.inr (Option.some.inj hval).symm
          · rw [if_neg hdm] at hval
            cases hval
      rcases he with rfl | rfl <;> simp
    | none =>
      have hw : write_iso_to_usb env = write_iso_to_device env := by
        simp [write_iso_to_usb, hval]
      rw [hw]
      unfold write_iso_to_device
      by_cases hie : env.iso_exists = false
      · simp [hie]
      · simp only [if_neg hie]
        by_cases hde : env.device_exists = false
        · simp [hde]
        · simp only [if_neg hde]
          cases hro : env.dev_open_read_ok with
          | false => simp [hro, writeAndVerify_spec]
          | true =>
            cases hio : env.ioctl_size with
            | none => simp [hro, hio, writeAndVerify_spec]
            | some c =>
              by_cases hlt : c < env.iso_content.length
              · simp [hro, hio, hlt]
              · simp [hro, hio, hlt, writeAndVerify_spec]
  · intro env e hext hL h1 h2 h3 hcap
    have hu : write_iso_to_usb env = write_iso_to_device env := by
      simp [write_iso_to_usb, validate_device_for_writing, h2, h3]
    rw [hu]
    unfold write_iso_to_device
    cases hro : env.dev_open_read_ok with
    | false => simp [h1, h2, hext, hL, hro, writeAndVerify_spec]
    | true =>
      cases hio : env.ioctl_size with
      | none => simp [h1, h2, hext, hL, hro, hio, writeAndVerify_spec]
      | some c =>
        have hge : ¬(c < env.iso_content.length) := Nat.not_lt.mpr (hcap c hro hio)
        simp [h1, h2, hext, hL, hro, hio, hge, writeAndVerify_spec]

/-- Environment for the C10 witness: a `.txt` source, everything else
valid. -/
def envC10 : Env :=
  { iso_path := ['f'], iso_exists := true, iso_ext := some ['t', 'x', 't'],
    iso_content := [3, 1], device_path := ['/', 'd'],
    device_exists := true, device_content := [], mounts := [],
    dev_open_read_ok := true, ioctl_size := some 10 }

/-- C10 witness: a non-`.iso` extension still reaches the device-write and
completes. -/
theorem C10_witness :
    (envC10.iso_ext = some ['t', 'x', 't'] ∧ lowerChars ['t', 'x', 't'] ≠ ['i', 's', 'o'] ∧
      is_device_mounted envC10.mounts envC10.device_path = false) ∧
    Ev.warnNotIso ∈ (write_iso_to_usb envC10).trace ∧
    Ev.writerOpenDev ∈ (write_iso_to_usb envC10).trace ∧
    (write_iso_to_usb envC10).outcome = Outcome.success := by
  refine ⟨⟨rfl, by decide, by decide⟩, ?_⟩
  exact C10_extension_only_warns.2 envC10 ['t', 'x', 't'] rfl (by decide) rfl rfl (by decide)
    (fun c hro hio => by
      have hc : (10 : Nat) = c := Option.some.inj hio
      rw [← hc]
      decide)

end Schrijver
